import Mathlib

/-!
Shallow embedding of the authorization engine of the ResilienceHub API
(`api/permissions.py`, `api/models.py`, `api/v3/services.py`).

Roles and permissions are the strings used by the source.  The guardian
object-permission table and the `UserRole` table are embedded as explicit
association lists inside a `PermState`; `assign_perm` / `remove_perm` /
`get_perms` act on the grant list by permission codename, exactly as
django-guardian stores object permissions (an app-prefixed name such as
`api.view_investigation` is resolved back to the bare codename
`view_investigation` before it is stored or deleted).
-/

/-- The four resource model classes (`Investigation`, `Study`, `Assay`,
`Sample` in `api/models.py`); a guardian content type. -/
inductive CType
  | investigation
  | study
  | assay
  | sample
deriving DecidableEq, Repr, Fintype

/-- Django `model_name` of each content type, as used in permission codenames. -/
def modelName : CType → String
  | CType.investigation => "investigation"
  | CType.study => "study"
  | CType.assay => "assay"
  | CType.sample => "sample"

/-- Identity of one resource row: content type plus primary key, the pair
guardian and `UserRole` key object permissions by. -/
structure RId where
  ctype : CType
  oid : Nat
deriving DecidableEq, Repr

/-- A principal: a Django `User` with the flags the permission code consults.
An anonymous user is represented by `is_authenticated = false`. -/
structure AuthUser where
  uid : Nat
  is_authenticated : Bool
  is_superuser : Bool
  is_staff : Bool
deriving DecidableEq, Repr

/-- `ROLE_PERMISSIONS` from `api/permissions.py`: role to permission names. -/
def ROLE_PERMISSIONS : List (String × List String) :=
  [("guest", []),
   ("internal", ["view"]),
   ("authorized", ["view"]),
   ("contributor", ["view", "change"]),
   ("owner", ["view", "change", "delete", "manage_permissions"])]

/-- `ROLE_PERMISSIONS.get(role, [])`. -/
def getPermsForRole (role : String) : List String :=
  (ROLE_PERMISSIONS.lookup role).getD []

/-- The guardian permission codename `f"{perm}_{model_name}"`. -/
def permCodename (perm model : String) : String :=
  perm ++ "_" ++ model

/-- The app-prefixed permission name `f"{app_label}.{perm}_{model_name}"`;
the app label of the `api` app is `api`. -/
def fullPermName (perm model : String) : String :=
  "api." ++ perm ++ "_" ++ model

/-- The permission codenames a role grants on a resource of a content type. -/
def roleCodenames (role : String) (ct : CType) : List String :=
  (getPermsForRole role).map (fun p => permCodename p (modelName ct))

/-- Every guardian codename registered for a content type (the codenames the
`Meta.permissions` of the models declare, plus the Django defaults). -/
def allCodenames (ct : CType) : List String :=
  (["view", "change", "delete", "manage_permissions"]).map
    (fun p => permCodename p (modelName ct))

/-- Persistent authorization state: the `UserRole` table
(`user_id, (content_type, object_id), role`) and the guardian
`UserObjectPermission` table (`user_id, (content_type, object_id), codename`). -/
structure PermState where
  userRoles : List (Nat × RId × String)
  grants : List (Nat × RId × String)
deriving DecidableEq, Repr

def emptyState : PermState := { userRoles := [], grants := [] }

/-- Codenames user `uid` holds on resource `r`: guardian `get_perms(user, obj)`. -/
def grantsForL (l : List (Nat × RId × String)) (uid : Nat) (r : RId) : List String :=
  l.filterMap (fun g => if g.1 = uid ∧ g.2.1 = r then some g.2.2 else none)

def grantsFor (st : PermState) (uid : Nat) (r : RId) : List String :=
  grantsForL st.grants uid r

/-- guardian `assign_perm(perm, user, obj)`: `get_or_create` on the grant row,
so assigning a permission a second time changes nothing. -/
def assignPerm (st : PermState) (uid : Nat) (r : RId) (c : String) : PermState :=
  if (uid, r, c) ∈ st.grants then st
  else { st with grants := st.grants ++ [(uid, r, c)] }

/-- guardian `remove_perm(perm, user, obj)`: deletes every grant row of this
user, object and codename. -/
def removePerm (st : PermState) (uid : Nat) (r : RId) (c : String) : PermState :=
  { st with
    grants := st.grants.filter (fun g => !(g.1 = uid ∧ g.2.1 = r ∧ g.2.2 = c : Bool)) }

/-- `UserRole.objects.update_or_create(user=..., content_type=..., object_id=...,
defaults={...})`: update the existing row for the pair, else insert one. -/
def upsertUserRole (st : PermState) (uid : Nat) (r : RId) (role : String) : PermState :=
  if st.userRoles.any (fun q => q.1 = uid ∧ q.2.1 = r) then
    { st with
      userRoles := st.userRoles.map
        (fun q => if q.1 = uid ∧ q.2.1 = r then (uid, r, role) else q) }
  else { st with userRoles := st.userRoles ++ [(uid, r, role)] }

/-- `UserRole.objects.filter(user=..., content_type=..., object_id=...).delete()`:
the per-model `clear_user_role` methods of `Investigation`/`Study`/`Assay`/`Sample`. -/
def deleteUserRole (st : PermState) (uid : Nat) (r : RId) : PermState :=
  { st with
    userRoles := st.userRoles.filter (fun q => !(q.1 = uid ∧ q.2.1 = r : Bool)) }

/-- The stored role of the `UserRole.objects.get(...)` lookup, `none` when the
row does not exist. -/
def getUserRoleStored (st : PermState) (uid : Nat) (r : RId) : Option String :=
  (st.userRoles.find? (fun q => q.1 = uid ∧ q.2.1 = r)).map (fun q => q.2.2)

/-- The `UserRole` rows of one `(user, resource)` pair. -/
def rolesFor (st : PermState) (uid : Nat) (r : RId) : List (Nat × RId × String) :=
  st.userRoles.filter (fun q => (q.1 = uid ∧ q.2.1 = r : Bool))

/-- `get_users_by_role(obj, role)`: the distinct users holding `role` on `r`. -/
def usersByRole (st : PermState) (r : RId) (role : String) : List Nat :=
  (st.userRoles.filterMap
    (fun q => if q.2.1 = r ∧ q.2.2 = role then some q.1 else none)).dedup

/-- Django `user.has_perm(perm, obj)` through the guardian backend: anonymous
and inactive users fail, active superusers hold every permission, and otherwise
the object-permission table is consulted by codename. -/
def hasPerm (st : PermState) (u : AuthUser) (r : RId) (c : String) : Bool :=
  u.is_authenticated && (u.is_superuser || c ∈ grantsFor st u.uid r)

/-- The removal loop of `set_user_role`:
`for perm in current_perms: if perm not in new_permissions: remove_perm(perm, user, obj)`. -/
def removeStalePerms (st : PermState) (uid : Nat) (r : RId)
    (current newFull : List String) : PermState :=
  current.foldl
    (fun s perm => if perm ∈ newFull then s else removePerm s uid r perm) st

/-- An unconditional removal loop over a list of codenames, as run by
`GuardianMixin.remove_user_permissions` and `clear_user_role`. -/
def removeAllPerms (st : PermState) (uid : Nat) (r : RId) (cs : List String) : PermState :=
  cs.foldl (fun s c => removePerm s uid r c) st

/-- An assignment loop over a list of codenames:
`for perm in new_permissions: assign_perm(perm, user, obj)`. -/
def grantRolePerms (st : PermState) (uid : Nat) (r : RId) (cs : List String) : PermState :=
  cs.foldl (fun s c => assignPerm s uid r c) st

/-- `set_user_role(obj, user, role)` from `api/permissions.py`: validate the
role against `ROLE_PERMISSIONS`, upsert the `UserRole` row, then for each
currently granted codename remove it unless it occurs in the list
`new_permissions` of app-prefixed names (a codename never equals a prefixed
name, so in effect every current grant is removed), and finally assign the
permissions of the new role (guardian stores their bare codenames). -/
def set_user_role (st : PermState) (u : AuthUser) (r : RId) (role : String) :
    Except String PermState :=
  if role ∉ ROLE_PERMISSIONS.map Prod.fst then
    Except.error ("Invalid role: " ++ role)
  else
    let st1 := upsertUserRole st u.uid r role
    let current_perms := grantsFor st1 u.uid r
    let new_permissions :=
      (getPermsForRole role).map (fun p => fullPermName p (modelName r.ctype))
    let st2 := removeStalePerms st1 u.uid r current_perms new_permissions
    Except.ok (grantRolePerms st2 u.uid r (roleCodenames role r.ctype))

/-- `clear_user_role(obj, user)` from `api/permissions.py`.  The last-owner
check inside the function is wrapped in a `try` whose handler is
`except Exception: pass`; the `ValueError` the check raises is therefore
swallowed, the check never takes effect, and the function always proceeds to
delete the `UserRole` row and every potential permission. -/
def clear_user_role (st : PermState) (u : AuthUser) (r : RId) : PermState :=
  let st1 := deleteUserRole st u.uid r
  removeAllPerms st1 u.uid r
    ((["view", "change", "delete", "manage_permissions"]).map
      (fun p => permCodename p (modelName r.ctype)))

namespace GuardianMixin

/-- `GuardianMixin.get_user_role`: guest for anonymous users, admin for
superusers, otherwise the highest of owner/contributor/authorized whose
permission set is contained in the permissions the user holds on the object,
else internal for staff, else guest. -/
def get_user_role (st : PermState) (u : AuthUser) (r : RId) : String :=
  if !u.is_authenticated then "guest"
  else if u.is_superuser then "admin"
  else
    let user_perms := grantsFor st u.uid r
    if (roleCodenames "owner" r.ctype).all (fun c => c ∈ user_perms) then "owner"
    else if (roleCodenames "contributor" r.ctype).all (fun c => c ∈ user_perms) then
      "contributor"
    else if (roleCodenames "authorized" r.ctype).all (fun c => c ∈ user_perms) then
      "authorized"
    else if u.is_staff then "internal"
    else "guest"

/-- `GuardianMixin.remove_user_permissions`: refuse to strip the last owner
(the current role is derived from the permission grants, the owner count from
the `UserRole` rows), then remove the full owner permission set and delete the
`UserRole` row. -/
def remove_user_permissions (st : PermState) (u : AuthUser) (r : RId) :
    Except String PermState :=
  let current_role := get_user_role st u r
  if current_role = "owner" ∧ (usersByRole st r "owner").length ≤ 1 then
    Except.error "Cannot remove the last owner. Assign another owner first."
  else
    let st1 := removeAllPerms st u.uid r (roleCodenames "owner" r.ctype)
    Except.ok (deleteUserRole st1 u.uid r)

/-- `GuardianMixin.assign_role`: validate the role, run
`remove_user_permissions` (which enforces the last-owner check), grant the
permissions of the new role, then store the `UserRole` row. -/
def assign_role (st : PermState) (u : AuthUser) (r : RId) (role : String) :
    Except String PermState :=
  if role ∉ ROLE_PERMISSIONS.map Prod.fst then
    Except.error ("Invalid role: " ++ role)
  else
    match remove_user_permissions st u r with
    | Except.error e => Except.error e
    | Except.ok st1 =>
      let st2 := grantRolePerms st1 u.uid r (roleCodenames role r.ctype)
      Except.ok (upsertUserRole st2 u.uid r role)

end GuardianMixin

/-- Module-level `get_user_role(obj, user)` from `api/permissions.py`: guest
for anonymous users, admin for superusers, else the stored `UserRole` row when
one exists, else guest (the staff flag is not consulted on this path). -/
def get_user_role (st : PermState) (u : AuthUser) (r : RId) : String :=
  if !u.is_authenticated then "guest"
  else if u.is_superuser then "admin"
  else
    match getUserRoleStored st u.uid r with
    | some role => role
    | none => "guest"

/-- `Investigation` (`api/models.py`): carries its own `security_level`. -/
structure Investigation where
  oid : Nat
  security_level : String
deriving DecidableEq, Repr

/-- `Study`: own `security_level` plus the `investigation` foreign key; the
code guards the fallback with `if self.investigation:`, so the reference is
embedded as an `Option`. -/
structure Study where
  oid : Nat
  security_level : String
  investigation : Option Investigation
deriving DecidableEq, Repr

/-- `Assay`: no stored security level of its own, only the `study` foreign
key; the code guards every use with `if self.study`, so the reference is
embedded as an `Option`. -/
structure Assay where
  oid : Nat
  study : Option Study
deriving DecidableEq, Repr

/-- `Sample`: carries its own `security_level`. -/
structure Sample where
  oid : Nat
  security_level : String
deriving DecidableEq, Repr

def Investigation.rid (i : Investigation) : RId := ⟨CType.investigation, i.oid⟩

def Study.rid (s : Study) : RId := ⟨CType.study, s.oid⟩

def Assay.rid (a : Assay) : RId := ⟨CType.assay, a.oid⟩

def Sample.rid (s : Sample) : RId := ⟨CType.sample, s.oid⟩

/-- The `Assay.security_level` property: the security level of the parent
study, `SecurityLevel.CONFIDENTIAL` when the study reference is absent. -/
def Assay.security_level (a : Assay) : String :=
  match a.study with
  | some s => s.security_level
  | none => "confidential"

/-- A resource handed to the `GuardianMixin` predicates: one of the four
model classes. -/
inductive Resource
  | investigation : Investigation → Resource
  | study : Study → Resource
  | assay : Assay → Resource
  | sample : Sample → Resource
deriving DecidableEq, Repr

def Resource.rid : Resource → RId
  | Resource.investigation i => i.rid
  | Resource.study s => s.rid
  | Resource.assay a => a.rid
  | Resource.sample s => s.rid

/-- `self.security_level` of each model (every model exposes the attribute;
`Assay` through its property). -/
def Resource.securityLevel : Resource → String
  | Resource.investigation i => i.security_level
  | Resource.study s => s.security_level
  | Resource.assay a => a.security_level
  | Resource.sample s => s.security_level

/-- `GuardianMixin._check_security_level_read`: the RBAC matrix of security
level against the role the mixin derives for the user on this object. -/
def check_security_level_read_base (st : PermState) (u : AuthUser) (r : RId)
    (level : String) : Bool :=
  if !u.is_authenticated then level == "public"
  else if u.is_superuser then true
  else
    let user_role := GuardianMixin.get_user_role st u r
    if level == "public" then true
    else if level == "internal" then
      decide (user_role ∈ ["internal", "authorized", "contributor", "owner", "admin"])
    else if level == "restricted" then
      decide (user_role ∈ ["authorized", "contributor", "owner", "admin"])
    else if level == "confidential" then
      decide (user_role ∈ ["authorized", "contributor", "owner", "admin"])
    else false

/-- `Study._check_security_level_read`: the base matrix on the study itself
first; when that denies and the investigation reference is set, the matrix is
re-applied to the user role held on the investigation, with a stricter
confidential row that admits only owner and admin. -/
def Study.check_security_level_read (st : PermState) (u : AuthUser) (s : Study) : Bool :=
  let basic := check_security_level_read_base st u s.rid s.security_level
  if basic then true
  else
    match s.investigation with
    | some i =>
      let inv_role := GuardianMixin.get_user_role st u i.rid
      if s.security_level == "public" then true
      else if s.security_level == "internal" then
        decide (inv_role ∈ ["internal", "authorized", "contributor", "owner", "admin"])
      else if s.security_level == "restricted" then
        decide (inv_role ∈ ["authorized", "contributor", "owner", "admin"])
      else if s.security_level == "confidential" then
        decide (inv_role ∈ ["owner", "admin"])
      else false
    | none => false

/-- `Assay._check_security_level_read`: delegate to the study, `False` when
the study reference is absent. -/
def Assay.check_security_level_read (st : PermState) (u : AuthUser) (a : Assay) : Bool :=
  match a.study with
  | some s => Study.check_security_level_read st u s
  | none => false

/-- The `_check_security_level_read` each model class runs: `Study` and
`Assay` override the mixin implementation. -/
def Resource.check_security_level_read (st : PermState) (u : AuthUser) :
    Resource → Bool
  | Resource.investigation i => check_security_level_read_base st u i.rid i.security_level
  | Resource.study s => Study.check_security_level_read st u s
  | Resource.assay a => Assay.check_security_level_read st u a
  | Resource.sample s => check_security_level_read_base st u s.rid s.security_level

/-- `GuardianMixin.can_read`: explicit view permission first, else the
security-level check (every model has a `security_level` attribute, so the
`hasattr` guard always passes). -/
def can_read (st : PermState) (u : AuthUser) (res : Resource) : Bool :=
  hasPerm st u res.rid (permCodename "view" (modelName res.rid.ctype))
    || Resource.check_security_level_read st u res

/-- `GuardianMixin.can_write`: the explicit change permission, nothing else. -/
def can_write (st : PermState) (u : AuthUser) (res : Resource) : Bool :=
  hasPerm st u res.rid (permCodename "change" (modelName res.rid.ctype))

/-- `GuardianMixin.can_manage_permissions`. -/
def can_manage_permissions (st : PermState) (u : AuthUser) (res : Resource) : Bool :=
  hasPerm st u res.rid (permCodename "manage_permissions" (modelName res.rid.ctype))

/-- `GuardianMixin.is_visible`: confidential objects are never listed,
everything else is visible exactly when it is readable. -/
def is_visible (st : PermState) (u : AuthUser) (res : Resource) : Bool :=
  if res.securityLevel == "confidential" then false
  else can_read st u res

/-- The per-item predicate of `ObjectVisibilityFilterMixin.get_queryset`
(`api/permissions.py`): skip confidential objects, then keep objects on which
the permission checker reports the view permission. -/
def objectVisibilityIncludes (st : PermState) (u : AuthUser) (res : Resource) : Bool :=
  !(res.securityLevel == "confidential")
    && hasPerm st u res.rid (permCodename "view" (modelName res.rid.ctype))

namespace InvestigationService

/-- The per-item predicate of `InvestigationService.list`
(`api/v3/services.py`): the checker must report `api.view_investigation`, and
confidential investigations are additionally required to pass
`user.has_perm('api.view_investigation', inv)` — the same check again. -/
def listIncludes (st : PermState) (u : AuthUser) (i : Investigation) : Bool :=
  hasPerm st u i.rid (permCodename "view" "investigation")
    && (!(i.security_level == "confidential")
        || hasPerm st u i.rid (permCodename "view" "investigation"))

/-- `InvestigationService.list`: every investigation passing `listIncludes`,
in order. -/
def list (st : PermState) (u : AuthUser) (invs : List Investigation) :
    List Investigation :=
  invs.filter (listIncludes st u)

end InvestigationService

/-- The keys of `ROLE_PERMISSIONS`: the roles `set_user_role` accepts. -/
def recognizedRoles : List String :=
  ["guest", "internal", "authorized", "contributor", "owner"]

/- Concrete principals, resources and states used as test fixtures. -/

def p1 : AuthUser := ⟨1, true, false, false⟩

def p2 : AuthUser := ⟨2, true, false, false⟩

def p3 : AuthUser := ⟨3, true, false, false⟩

def p4 : AuthUser := ⟨4, true, false, false⟩

def superUser : AuthUser := ⟨9, true, true, false⟩

def anonUser : AuthUser := ⟨0, false, false, false⟩

def rInv : RId := ⟨CType.investigation, 1⟩

/-- State after `set_user_role(inv1, p1, owner)` on an empty store. -/
def stA : PermState :=
  { userRoles := [(1, rInv, "owner")],
    grants := [(1, rInv, "view_investigation"), (1, rInv, "change_investigation"),
               (1, rInv, "delete_investigation"),
               (1, rInv, "manage_permissions_investigation")] }

/-- State after additionally `set_user_role(inv1, p2, owner)` on `stA`. -/
def stB : PermState :=
  { userRoles := [(1, rInv, "owner"), (2, rInv, "owner")],
    grants := [(1, rInv, "view_investigation"), (1, rInv, "change_investigation"),
               (1, rInv, "delete_investigation"),
               (1, rInv, "manage_permissions_investigation"),
               (2, rInv, "view_investigation"), (2, rInv, "change_investigation"),
               (2, rInv, "delete_investigation"),
               (2, rInv, "manage_permissions_investigation")] }

/-- State after `set_user_role(inv1, p3, authorized)` on an empty store. -/
def stC : PermState :=
  { userRoles := [(3, rInv, "authorized")],
    grants := [(3, rInv, "view_investigation")] }

/-- State after downgrading `p1` from owner to contributor on `stA`. -/
def stD : PermState :=
  { userRoles := [(1, rInv, "contributor")],
    grants := [(1, rInv, "view_investigation"), (1, rInv, "change_investigation")] }

/-- State after `set_user_role(inv1, p1, internal)` on an empty store. -/
def stI : PermState :=
  { userRoles := [(1, rInv, "internal")],
    grants := [(1, rInv, "view_investigation")] }

/-- A confidential investigation with primary key 1. -/
def iC : Investigation := ⟨1, "confidential"⟩

/-- A public investigation with primary key 10. -/
def iPub : Investigation := ⟨10, "public"⟩

/-- A confidential study whose parent is the public investigation `iPub`. -/
def sConf : Study := ⟨20, "confidential", some iPub⟩

/-- State after `set_user_role(iPub, p4, owner)` on an empty store. -/
def stOwn : PermState :=
  { userRoles := [(4, ⟨CType.investigation, 10⟩, "owner")],
    grants := [(4, ⟨CType.investigation, 10⟩, "view_investigation"),
               (4, ⟨CType.investigation, 10⟩, "change_investigation"),
               (4, ⟨CType.investigation, 10⟩, "delete_investigation"),
               (4, ⟨CType.investigation, 10⟩, "manage_permissions_investigation")] }

/-! ## Basic membership lemmas about the grant and role stores -/

theorem mem_grantsForL {l : List (Nat × RId × String)} {uid : Nat} {r : RId}
    {c : String} : c ∈ grantsForL l uid r ↔ (uid, r, c) ∈ l := by
  simp only [grantsForL, List.mem_filterMap]
  constructor
  · rintro ⟨⟨a, q, d⟩, hg, h⟩
    split at h
    · rename_i hc
      obtain ⟨h1, h2⟩ := hc
      simp only at h1 h2
      cases h
      subst h1
      subst h2
      exact hg
    · cases h
  · intro hg
    exact ⟨(uid, r, c), hg, by simp⟩

theorem mem_grantsFor {st : PermState} {uid : Nat} {r : RId} {c : String} :
    c ∈ grantsFor st uid r ↔ (uid, r, c) ∈ st.grants :=
  mem_grantsForL

theorem grants_upsertUserRole (st : PermState) (uid : Nat) (r : RId) (ρ : String) :
    (upsertUserRole st uid r ρ).grants = st.grants := by
  unfold upsertUserRole
  split <;> rfl

theorem userRoles_removePerm (st : PermState) (uid : Nat) (r : RId) (c : String) :
    (removePerm st uid r c).userRoles = st.userRoles := rfl

theorem userRoles_assignPerm (st : PermState) (uid : Nat) (r : RId) (c : String) :
    (assignPerm st uid r c).userRoles = st.userRoles := by
  unfold assignPerm
  split <;> rfl

theorem mem_grants_removePerm {st : PermState} {uid : Nat} {r : RId} {c : String}
    {g : Nat × RId × String} :
    g ∈ (removePerm st uid r c).grants ↔
      g ∈ st.grants ∧ ¬(g.1 = uid ∧ g.2.1 = r ∧ g.2.2 = c) := by
  simp only [removePerm, List.mem_filter, Bool.not_eq_true', decide_eq_false_iff_not]

theorem mem_grants_assignPerm {st : PermState} {uid : Nat} {r : RId} {c : String}
    {g : Nat × RId × String} :
    g ∈ (assignPerm st uid r c).grants ↔ g ∈ st.grants ∨ g = (uid, r, c) := by
  unfold assignPerm
  split
  · rename_i hmem
    constructor
    · exact Or.inl
    · rintro (h | rfl)
      · exact h
      · exact hmem
  · simp

theorem userRoles_removeStalePerms (st : PermState) (uid : Nat) (r : RId)
    (current newFull : List String) :
    (removeStalePerms st uid r current newFull).userRoles = st.userRoles := by
  induction current generalizing st with
  | nil => rfl
  | cons c cs ih =>
    simp only [removeStalePerms, List.foldl_cons]
    split
    · exact ih st
    · exact ih (removePerm st uid r c)

theorem userRoles_removeAllPerms (st : PermState) (uid : Nat) (r : RId)
    (cs : List String) :
    (removeAllPerms st uid r cs).userRoles = st.userRoles := by
  induction cs generalizing st with
  | nil => rfl
  | cons c cs ih => exact ih (removePerm st uid r c)

theorem userRoles_grantRolePerms (st : PermState) (uid : Nat) (r : RId)
    (cs : List String) :
    (grantRolePerms st uid r cs).userRoles = st.userRoles := by
  induction cs generalizing st with
  | nil => rfl
  | cons c cs ih =>
    simp only [grantRolePerms, List.foldl_cons]
    rw [show (cs.foldl (fun s c => assignPerm s uid r c) (assignPerm st uid r c)) =
      grantRolePerms (assignPerm st uid r c) uid r cs from rfl]
    rw [ih, userRoles_assignPerm]

theorem mem_grants_removeStalePerms {st : PermState} {uid : Nat} {r : RId}
    {current newFull : List String} {g : Nat × RId × String} :
    g ∈ (removeStalePerms st uid r current newFull).grants ↔
      g ∈ st.grants ∧ ¬(g.1 = uid ∧ g.2.1 = r ∧ g.2.2 ∈ current ∧ g.2.2 ∉ newFull) := by
  induction current generalizing st with
  | nil => simp [removeStalePerms]
  | cons c cs ih =>
    simp only [removeStalePerms, List.foldl_cons]
    by_cases hc : c ∈ newFull
    · rw [if_pos hc]
      rw [show (cs.foldl (fun s perm => if perm ∈ newFull then s
          else removePerm s uid r perm) st) = removeStalePerms st uid r cs newFull from rfl]
      rw [ih]
      simp only [List.mem_cons]
      have hcc : g.2.2 = c → g.2.2 ∈ newFull := fun h => h ▸ hc
      tauto
    · rw [if_neg hc]
      rw [show (cs.foldl (fun s perm => if perm ∈ newFull then s
          else removePerm s uid r perm) (removePerm st uid r c)) =
          removeStalePerms (removePerm st uid r c) uid r cs newFull from rfl]
      rw [ih, mem_grants_removePerm]
      simp only [List.mem_cons]
      have hcc : g.2.2 = c → g.2.2 ∉ newFull := fun h => h ▸ hc
      tauto

theorem mem_grants_removeAllPerms {st : PermState} {uid : Nat} {r : RId}
    {cs : List String} {g : Nat × RId × String} :
    g ∈ (removeAllPerms st uid r cs).grants ↔
      g ∈ st.grants ∧ ¬(g.1 = uid ∧ g.2.1 = r ∧ g.2.2 ∈ cs) := by
  induction cs generalizing st with
  | nil => simp [removeAllPerms]
  | cons c cs ih =>
    rw [show removeAllPerms st uid r (c :: cs) =
      removeAllPerms (removePerm st uid r c) uid r cs from rfl]
    rw [ih, mem_grants_removePerm]
    simp only [List.mem_cons]
    tauto

theorem mem_grants_grantRolePerms {st : PermState} {uid : Nat} {r : RId}
    {cs : List String} {g : Nat × RId × String} :
    g ∈ (grantRolePerms st uid r cs).grants ↔
      g ∈ st.grants ∨ (g.1 = uid ∧ g.2.1 = r ∧ g.2.2 ∈ cs) := by
  induction cs generalizing st with
  | nil => simp [grantRolePerms]
  | cons c cs ih =>
    rw [show grantRolePerms st uid r (c :: cs) =
      grantRolePerms (assignPerm st uid r c) uid r cs from rfl]
    rw [ih, mem_grants_assignPerm]
    simp only [List.mem_cons, Prod.ext_iff]
    constructor
    · rintro ((hg | h) | h)
      · exact Or.inl hg
      · exact Or.inr ⟨h.1, h.2.1, Or.inl h.2.2⟩
      · exact Or.inr ⟨h.1, h.2.1, Or.inr h.2.2⟩
    · rintro (hg | ⟨h1, h2, (h3 | h3)⟩)
      · exact Or.inl (Or.inl hg)
      · exact Or.inl (Or.inr ⟨h1, h2, h3⟩)
      · exact Or.inr ⟨h1, h2, h3⟩

theorem keys_ROLE_PERMISSIONS : ROLE_PERMISSIONS.map Prod.fst = recognizedRoles := rfl

theorem getPermsForRole_guest : getPermsForRole "guest" = [] := rfl

theorem getPermsForRole_internal : getPermsForRole "internal" = ["view"] := rfl

theorem getPermsForRole_authorized : getPermsForRole "authorized" = ["view"] := rfl

theorem getPermsForRole_contributor :
    getPermsForRole "contributor" = ["view", "change"] := rfl

theorem getPermsForRole_owner :
    getPermsForRole "owner" = ["view", "change", "delete", "manage_permissions"] := rfl

theorem grantsFor_upsertUserRole (st : PermState) (uid : Nat) (r : RId) (ρ : String)
    (uidA : Nat) (rA : RId) :
    grantsFor (upsertUserRole st uid r ρ) uidA rA = grantsFor st uidA rA := by
  unfold grantsFor
  rw [grants_upsertUserRole]

theorem mem_grantsFor_removeStalePerms {st : PermState} {uid : Nat} {r : RId}
    {current newFull : List String} {c : String} :
    c ∈ grantsFor (removeStalePerms st uid r current newFull) uid r ↔
      c ∈ grantsFor st uid r ∧ (c ∉ current ∨ c ∈ newFull) := by
  rw [mem_grantsFor, mem_grantsFor, mem_grants_removeStalePerms]
  simp only [true_and]
  tauto

theorem mem_grantsFor_removeAllPerms {st : PermState} {uid : Nat} {r : RId}
    {cs : List String} {c : String} :
    c ∈ grantsFor (removeAllPerms st uid r cs) uid r ↔
      c ∈ grantsFor st uid r ∧ c ∉ cs := by
  rw [mem_grantsFor, mem_grantsFor, mem_grants_removeAllPerms]
  simp only [true_and]

theorem mem_grantsFor_grantRolePerms {st : PermState} {uid : Nat} {r : RId}
    {cs : List String} {c : String} :
    c ∈ grantsFor (grantRolePerms st uid r cs) uid r ↔
      c ∈ grantsFor st uid r ∨ c ∈ cs := by
  rw [mem_grantsFor, mem_grantsFor, mem_grants_grantRolePerms]
  simp only [true_and]

theorem grantsForL_append (l1 l2 : List (Nat × RId × String)) (uid : Nat) (r : RId) :
    grantsForL (l1 ++ l2) uid r = grantsForL l1 uid r ++ grantsForL l2 uid r := by
  simp [grantsForL]

theorem grantsFor_grantRolePerms_eq (cs : List String) (st : PermState) (uid : Nat)
    (r : RId) (hnd : cs.Nodup) (hdis : ∀ c ∈ cs, c ∉ grantsFor st uid r) :
    grantsFor (grantRolePerms st uid r cs) uid r = grantsFor st uid r ++ cs := by
  induction cs generalizing st with
  | nil => simp [grantRolePerms]
  | cons c cs ih =>
    have hnotmem : (uid, r, c) ∉ st.grants := fun hm =>
      hdis c (List.mem_cons_self _ _) (mem_grantsFor.mpr hm)
    have hstep : grantsFor (assignPerm st uid r c) uid r = grantsFor st uid r ++ [c] := by
      unfold assignPerm
      rw [if_neg hnotmem]
      show grantsForL (st.grants ++ [(uid, r, c)]) uid r = _
      rw [grantsForL_append]
      simp [grantsForL, grantsFor]
    have hdis2 : ∀ c2 ∈ cs, c2 ∉ grantsFor (assignPerm st uid r c) uid r := by
      intro c2 hc2 hmem
      rw [hstep] at hmem
      rcases List.mem_append.mp hmem with hm | hm
      · exact hdis c2 (List.mem_cons_of_mem _ hc2) hm
      · rw [List.mem_singleton] at hm
        subst hm
        exact (List.nodup_cons.mp hnd).1 hc2
    rw [show grantRolePerms st uid r (c :: cs) =
      grantRolePerms (assignPerm st uid r c) uid r cs from rfl]
    rw [ih (assignPerm st uid r c) (List.Nodup.of_cons hnd) hdis2, hstep]
    simp

theorem allCodenames_not_mem_newFull :
    ∀ ct : CType, ∀ role ∈ recognizedRoles, ∀ c ∈ allCodenames ct,
      c ∉ (getPermsForRole role).map (fun p => fullPermName p (modelName ct)) := by
  decide

theorem roleCodenames_subset_allCodenames :
    ∀ ct : CType, ∀ role ∈ recognizedRoles, ∀ c ∈ roleCodenames role ct,
      c ∈ allCodenames ct := by
  decide

theorem roleCodenames_nodup :
    ∀ ct : CType, ∀ role ∈ recognizedRoles, (roleCodenames role ct).Nodup := by
  decide

theorem mem_upsertUserRole {st : PermState} {uid : Nat} {r : RId} {ρ : String}
    {q : Nat × RId × String} (h : q ∈ (upsertUserRole st uid r ρ).userRoles) :
    q ∈ st.userRoles ∨ q = (uid, r, ρ) := by
  unfold upsertUserRole at h
  split at h
  · simp only [List.mem_map] at h
    obtain ⟨p, hp, hfp⟩ := h
    by_cases hc : p.1 = uid ∧ p.2.1 = r
    · right
      rw [if_pos hc] at hfp
      exact hfp.symm
    · left
      rw [if_neg hc] at hfp
      exact hfp ▸ hp
  · rcases List.mem_append.mp h with h | h
    · exact Or.inl h
    · right
      simpa using h

theorem filter_map_upsert (l : List (Nat × RId × String)) (uid : Nat) (r : RId)
    (ρ : String) :
    (l.map (fun q => if q.1 = uid ∧ q.2.1 = r then (uid, r, ρ) else q)).filter
        (fun q => (q.1 = uid ∧ q.2.1 = r : Bool)) =
      List.replicate
        ((l.filter (fun q => (q.1 = uid ∧ q.2.1 = r : Bool))).length) (uid, r, ρ) := by
  induction l with
  | nil => rfl
  | cons q l ih =>
    rw [List.map_cons]
    by_cases hc : q.1 = uid ∧ q.2.1 = r
    · rw [if_pos hc]
      rw [List.filter_cons, List.filter_cons]
      simp only [hc, and_self, decide_True, if_true]
      rw [List.length_cons, List.replicate_succ, ih]
    · rw [if_neg hc]
      rw [List.filter_cons, List.filter_cons]
      simp only [hc, decide_False, Bool.false_eq_true, if_false]
      exact ih

theorem rolesFor_upsertUserRole (st : PermState) (uid : Nat) (r : RId) (ρ : String)
    (h : (rolesFor st uid r).length ≤ 1) :
    rolesFor (upsertUserRole st uid r ρ) uid r = [(uid, r, ρ)] := by
  unfold rolesFor at h ⊢
  unfold upsertUserRole
  split
  · rename_i hany
    show (st.userRoles.map _).filter _ = _
    rw [filter_map_upsert]
    have h1 : 0 <
        (st.userRoles.filter (fun q => (q.1 = uid ∧ q.2.1 = r : Bool))).length := by
      rw [List.any_eq_true] at hany
      obtain ⟨q, hq, hpq⟩ := hany
      have hqf : q ∈ st.userRoles.filter (fun q => (q.1 = uid ∧ q.2.1 = r : Bool)) :=
        List.mem_filter.mpr ⟨hq, hpq⟩
      exact List.length_pos.mpr (List.ne_nil_of_mem hqf)
    have h2 : (st.userRoles.filter (fun q => (q.1 = uid ∧ q.2.1 = r : Bool))).length = 1 :=
      le_antisymm h h1
    rw [h2]
    rfl
  · rename_i hany
    show (st.userRoles ++ [(uid, r, ρ)]).filter _ = _
    rw [List.filter_append]
    have hnil : st.userRoles.filter (fun q => (q.1 = uid ∧ q.2.1 = r : Bool)) = [] := by
      rw [List.filter_eq_nil_iff]
      intro q hq hpq
      exact hany (List.any_eq_true.mpr ⟨q, hq, hpq⟩)
    rw [hnil]
    simp

theorem set_user_role_role_mem {st st' : PermState} {u : AuthUser} {r : RId}
    {role : String} (h : set_user_role st u r role = Except.ok st') :
    role ∈ recognizedRoles := by
  by_contra hmem
  unfold set_user_role at h
  rw [if_pos (by simpa [keys_ROLE_PERMISSIONS] using hmem)] at h
  cases h

theorem set_user_role_eq_ok {st st' : PermState} {u : AuthUser} {r : RId}
    {role : String} (h : set_user_role st u r role = Except.ok st') :
    st' = grantRolePerms
      (removeStalePerms (upsertUserRole st u.uid r role) u.uid r
        (grantsFor (upsertUserRole st u.uid r role) u.uid r)
        ((getPermsForRole role).map (fun p => fullPermName p (modelName r.ctype))))
      u.uid r (roleCodenames role r.ctype) := by
  have hmem := set_user_role_role_mem h
  unfold set_user_role at h
  rw [if_neg (not_not_intro (by simpa [keys_ROLE_PERMISSIONS] using hmem))] at h
  simpa using h.symm

theorem set_user_role_userRoles {st st' : PermState} {u : AuthUser} {r : RId}
    {role : String} (h : set_user_role st u r role = Except.ok st') :
    st'.userRoles = (upsertUserRole st u.uid r role).userRoles := by
  have hst := set_user_role_eq_ok h
  subst hst
  rw [userRoles_grantRolePerms, userRoles_removeStalePerms]

theorem rolesFor_congr {st1 st2 : PermState} (h : st1.userRoles = st2.userRoles)
    (uid : Nat) (r : RId) : rolesFor st1 uid r = rolesFor st2 uid r := by
  unfold rolesFor
  rw [h]

/-- The central sync property of `set_user_role`: on success the permission
grants of the pair are exactly the codenames of the new role, provided the
grants held beforehand are genuine guardian codenames. -/
theorem set_user_role_grantsFor {st st' : PermState} {u : AuthUser} {r : RId}
    {role : String}
    (hvalid : ∀ c ∈ grantsFor st u.uid r, c ∈ allCodenames r.ctype)
    (h : set_user_role st u r role = Except.ok st') :
    grantsFor st' u.uid r = roleCodenames role r.ctype := by
  have hmem := set_user_role_role_mem h
  have hst := set_user_role_eq_ok h
  subst hst
  have hframe : grantsFor (upsertUserRole st u.uid r role) u.uid r =
      grantsFor st u.uid r := grantsFor_upsertUserRole st u.uid r role u.uid r
  have hnil : grantsFor (removeStalePerms (upsertUserRole st u.uid r role) u.uid r
      (grantsFor (upsertUserRole st u.uid r role) u.uid r)
      ((getPermsForRole role).map (fun p => fullPermName p (modelName r.ctype))))
      u.uid r = [] := by
    rw [List.eq_nil_iff_forall_not_mem]
    intro c hc
    rw [mem_grantsFor_removeStalePerms] at hc
    obtain ⟨hc1, hc2⟩ := hc
    rcases hc2 with hc2 | hc2
    · exact hc2 hc1
    · rw [hframe] at hc1
      exact allCodenames_not_mem_newFull r.ctype role hmem c (hvalid c hc1) hc2
  rw [grantsFor_grantRolePerms_eq _ _ _ _ (roleCodenames_nodup r.ctype role hmem)
    (by rw [hnil]; simp), hnil]
  simp

/-! ## Claim theorems -/

/-- **C1** (code bug witnessed): on a state where `p1` holds the only owner
assignment of the investigation, the mixin path
`GuardianMixin.remove_user_permissions` raises the last-owner error before any
mutation, and succeeds once `p2` has been made a second owner; but the
module-level `clear_user_role` — whose docstring promises the same
`ValueError` — silently deletes the last owner assignment and every grant,
because its `except Exception: pass` swallows the error its own check raises. -/
theorem last_owner_revocation_guard :
    set_user_role emptyState p1 rInv "owner" = Except.ok stA ∧
    usersByRole stA rInv "owner" = [1] ∧
    GuardianMixin.remove_user_permissions stA p1 rInv =
      Except.error "Cannot remove the last owner. Assign another owner first." ∧
    clear_user_role stA p1 rInv = emptyState ∧
    set_user_role stA p2 rInv "owner" = Except.ok stB ∧
    (GuardianMixin.remove_user_permissions stB p1 rInv).toOption.isSome = true :=
  ⟨rfl, rfl, rfl, rfl, rfl, rfl⟩

/-- **C9**: assigning the role `admin` fails with the invalid-role error on
both assignment paths before any mutation, because `admin` is not a key of
`ROLE_PERMISSIONS`; consequently no successful `set_user_role` call can ever
add an `admin` row to the `UserRole` table. -/
theorem assign_admin_role_rejected :
    (∀ (st : PermState) (u : AuthUser) (r : RId),
      set_user_role st u r "admin" = Except.error "Invalid role: admin") ∧
    (∀ (st : PermState) (u : AuthUser) (r : RId),
      GuardianMixin.assign_role st u r "admin" = Except.error "Invalid role: admin") ∧
    (∀ (st st' : PermState) (u : AuthUser) (r : RId) (role : String)
      (uid : Nat) (r2 : RId),
      set_user_role st u r role = Except.ok st' →
      (uid, r2, "admin") ∈ st'.userRoles → (uid, r2, "admin") ∈ st.userRoles) := by
  refine ⟨fun st u r => rfl, fun st u r => rfl, ?_⟩
  intro st st' u r role uid r2 h hmem
  have hrole := set_user_role_role_mem h
  have hur := set_user_role_userRoles h
  rw [hur] at hmem
  rcases mem_upsertUserRole hmem with hm | hm
  · exact hm
  · exfalso
    have hadm : "admin" = role := by
      have := congrArg (fun q => q.2.2) hm
      simpa using this
    rw [← hadm] at hrole
    exact absurd hrole (by decide)

/-- Witness for **C9**: a concrete successful assignment, here of `owner` on
an empty store, leaves no `admin` row behind. -/
theorem assign_admin_role_rejected_witness : (1, rInv, "admin") ∉ stA.userRoles :=
  fun hmem => by
    have h := assign_admin_role_rejected.2.2 emptyState stA p1 rInv "owner" 1 rInv
      rfl hmem
    simp [emptyState] at h

/-- **C7**: every resource whose effective security level is `public` is
readable by every principal, the anonymous one included. -/
theorem public_resources_readable_by_everyone
    (st : PermState) (u : AuthUser) (res : Resource)
    (h : res.securityLevel = "public") : can_read st u res = true := by
  have hbase : ∀ r : RId, check_security_level_read_base st u r "public" = true := by
    intro r
    unfold check_security_level_read_base
    cases hau : u.is_authenticated <;> cases hsu : u.is_superuser <;> simp [hau, hsu]
  cases res with
  | investigation i =>
    simp only [Resource.securityLevel] at h
    simp [can_read, Resource.check_security_level_read, h, hbase]
  | study s =>
    simp only [Resource.securityLevel] at h
    simp [can_read, Resource.check_security_level_read, Study.check_security_level_read,
      h, hbase]
  | assay a =>
    simp only [Resource.securityLevel] at h
    cases hst : a.study with
    | none => simp [Assay.security_level, hst] at h
    | some s =>
      simp only [Assay.security_level, hst] at h
      simp [can_read, Resource.check_security_level_read, Assay.check_security_level_read,
        Study.check_security_level_read, hst, h, hbase]
  | sample s =>
    simp only [Resource.securityLevel] at h
    simp [can_read, Resource.check_security_level_read, h, hbase]

/-- Witness for **C7**: the public investigation is readable by an anonymous
user on an empty store. -/
theorem public_resources_readable_witness :
    can_read emptyState anonUser (Resource.investigation iPub) = true :=
  public_resources_readable_by_everyone emptyState anonUser (Resource.investigation iPub)
    rfl

/-- **C10**: an assay stores no security level of its own — its
`security_level` property is the parent study level, `confidential` when the
study reference is absent — and its security-level read check is delegated
verbatim to the parent study (`False` without a study). -/
theorem assay_security_level_delegates :
    (∀ (a : Assay) (s : Study), a.study = some s → a.security_level = s.security_level) ∧
    (∀ a : Assay, a.study = none → a.security_level = "confidential") ∧
    (∀ (st : PermState) (u : AuthUser) (a : Assay) (s : Study), a.study = some s →
      Assay.check_security_level_read st u a = Study.check_security_level_read st u s) ∧
    (∀ (st : PermState) (u : AuthUser) (a : Assay), a.study = none →
      Assay.check_security_level_read st u a = false) := by
  refine ⟨?_, ?_, ?_, ?_⟩ <;> intros <;>
    simp_all [Assay.security_level, Assay.check_security_level_read]

/-- Witness for **C10**: a concrete assay under the confidential study
inherits the study security level. -/
theorem assay_security_level_delegates_witness :
    Assay.security_level ⟨30, some sConf⟩ = "confidential" := by
  rw [assay_security_level_delegates.1 ⟨30, some sConf⟩ sConf rfl]
  rfl

/-- Counterexample to **C2** as stated: on the v3 listing path
(`InvestigationService.list`), a confidential investigation on which the user
holds an explicit `authorized` grant IS listed — the confidentiality clause of
that filter repeats the permission check instead of excluding the item — even
though the per-object `is_visible` predicate returns false on the same
input. -/
theorem confidential_listing_cex :
    iC.security_level = "confidential" ∧
    set_user_role emptyState p3 iC.rid "authorized" = Except.ok stC ∧
    is_visible stC p3 (Resource.investigation iC) = false ∧
    InvestigationService.listIncludes stC p3 iC = true ∧
    InvestigationService.list stC p3 [iC] = [iC] :=
  ⟨rfl, rfl, rfl, rfl, rfl⟩

/-- **C2 amended**: the per-object `is_visible` predicate behaves as claimed —
false for every confidential resource regardless of principal, equal to
`can_read` otherwise, while an explicit view grant keeps the resource readable;
but the bulk paths diverge: the v3 `InvestigationService.list` filter is
exactly the explicit view-permission check, its confidentiality clause being
redundant, so confidential investigations with a view grant are listed there. -/
theorem visibility_rules_amended :
    (∀ (st : PermState) (u : AuthUser) (res : Resource),
      res.securityLevel = "confidential" → is_visible st u res = false) ∧
    (∀ (st : PermState) (u : AuthUser) (res : Resource),
      res.securityLevel ≠ "confidential" → is_visible st u res = can_read st u res) ∧
    (∀ (st : PermState) (u : AuthUser) (res : Resource),
      u.is_authenticated = true →
      permCodename "view" (modelName res.rid.ctype) ∈ grantsFor st u.uid res.rid →
      can_read st u res = true) ∧
    (∀ (st : PermState) (u : AuthUser) (i : Investigation),
      InvestigationService.listIncludes st u i =
        hasPerm st u i.rid (permCodename "view" "investigation")) ∧
    (objectVisibilityIncludes emptyState anonUser (Resource.investigation iPub) = false ∧
      can_read emptyState anonUser (Resource.investigation iPub) = true) := by
  refine ⟨?_, ?_, ?_, ?_, rfl, rfl⟩
  · intro st u res h
    simp [is_visible, h]
  · intro st u res h
    have hb : (res.securityLevel == "confidential") = false :=
      beq_eq_false_iff_ne.mpr h
    simp [is_visible, hb]
  · intro st u res hau hmem
    simp [can_read, hasPerm, hau, hmem]
  · intro st u i
    unfold InvestigationService.listIncludes
    cases hp : hasPerm st u i.rid (permCodename "view" "investigation") <;> simp [hp]

/-- Witness for **C2 amended**: even a superuser does not see the confidential
investigation through `is_visible`. -/
theorem visibility_rules_amended_witness :
    is_visible emptyState superUser (Resource.investigation iC) = false :=
  visibility_rules_amended.1 emptyState superUser (Resource.investigation iC) rfl

/-- Counterexample to **C4** as stated: assigning the role `internal` stores
an `internal` row in the `UserRole` table, yet the mixin role resolution
reports `authorized`, because it reconstructs the role from the granted
permission set instead of reading the stored assignment. -/
theorem role_precedence_cex :
    set_user_role emptyState p1 rInv "internal" = Except.ok stI ∧
    getUserRoleStored stI p1.uid rInv = some "internal" ∧
    GuardianMixin.get_user_role stI p1 rInv = "authorized" :=
  ⟨rfl, rfl, rfl⟩

/-- **C4 amended**: `GuardianMixin.get_user_role` follows the claimed
precedence except in step 3, which infers the role from the permission grants:
unauthenticated gives guest, superuser gives admin, otherwise the highest of
owner/contributor/authorized whose permission set the user holds — which
equals the stored role when that role is one of those three and the grants are
in sync — and with no grants the staff flag decides internal versus guest. -/
theorem role_precedence_amended :
    (∀ (st : PermState) (u : AuthUser) (r : RId), u.is_authenticated = false →
      GuardianMixin.get_user_role st u r = "guest") ∧
    (∀ (st : PermState) (u : AuthUser) (r : RId), u.is_authenticated = true →
      u.is_superuser = true → GuardianMixin.get_user_role st u r = "admin") ∧
    (∀ (st st' : PermState) (u : AuthUser) (r : RId) (role : String),
      u.is_authenticated = true → u.is_superuser = false →
      role ∈ (["owner", "contributor", "authorized"] : List String) →
      (∀ c ∈ grantsFor st u.uid r, c ∈ allCodenames r.ctype) →
      set_user_role st u r role = Except.ok st' →
      GuardianMixin.get_user_role st' u r = role) ∧
    (∀ (st : PermState) (u : AuthUser) (r : RId), u.is_authenticated = true →
      u.is_superuser = false → grantsFor st u.uid r = [] →
      GuardianMixin.get_user_role st u r =
        (if u.is_staff then "internal" else "guest")) := by
  refine ⟨?_, ?_, ?_, ?_⟩
  · intro st u r h
    simp [GuardianMixin.get_user_role, h]
  · intro st u r h1 h2
    simp [GuardianMixin.get_user_role, h1, h2]
  · intro st st' u r role h1 h2 hrole hvalid h
    have hg := set_user_role_grantsFor hvalid h
    obtain ⟨ct, oid⟩ := r
    simp only [List.mem_cons, List.not_mem_nil, or_false] at hrole
    rcases hrole with rfl | rfl | rfl <;> cases ct <;>
      simp [GuardianMixin.get_user_role, h1, h2, hg, roleCodenames, getPermsForRole_owner,
        getPermsForRole_contributor, getPermsForRole_authorized, permCodename, modelName]
  · intro st u r h1 h2 hg
    simp [GuardianMixin.get_user_role, h1, h2, hg, roleCodenames, getPermsForRole_owner,
      getPermsForRole_contributor, getPermsForRole_authorized, permCodename, modelName]

/-- Witness for **C4 amended**: after a concrete owner assignment the mixin
reports exactly the stored role. -/
theorem role_precedence_amended_witness :
    GuardianMixin.get_user_role stA p1 rInv = "owner" :=
  role_precedence_amended.2.2.1 emptyState stA p1 rInv "owner" rfl rfl (by decide)
    (fun c hc => absurd hc (List.not_mem_nil c)) rfl

/-- Counterexample to **C3** as stated: a guest can read the public parent
investigation, the confidential child study has no grant of its own, and yet
the study is not readable — parent readability does not propagate; only the
parent-level role does. -/
theorem parent_fallback_cex :
    sConf.investigation = some iPub ∧
    grantsFor emptyState p4.uid sConf.rid = [] ∧
    can_read emptyState p4 (Resource.investigation iPub) = true ∧
    can_read emptyState p4 (Resource.study sConf) = false :=
  ⟨rfl, rfl, rfl, rfl⟩

/-- For a confidential study without grants of its own, readability for an
ordinary authenticated user is exactly an owner/admin role on the parent
investigation. -/
theorem study_confidential_fallback_iff
    (st : PermState) (u : AuthUser) (s : Study) (i : Investigation)
    (h1 : u.is_authenticated = true) (h2 : u.is_superuser = false)
    (h3 : u.is_staff = false)
    (hgs : grantsFor st u.uid s.rid = [])
    (hlev : s.security_level = "confidential")
    (hinv : s.investigation = some i) :
    can_read st u (Resource.study s) = true ↔
      GuardianMixin.get_user_role st u i.rid ∈ (["owner", "admin"] : List String) := by
  have hrole_s : GuardianMixin.get_user_role st u s.rid = "guest" := by
    simp [GuardianMixin.get_user_role, h1, h2, h3, hgs, roleCodenames,
      getPermsForRole_owner, getPermsForRole_contributor, getPermsForRole_authorized,
      permCodename, modelName]
  simp [can_read, hasPerm, h1, h2, hgs, Resource.rid, Resource.check_security_level_read,
    Study.check_security_level_read, check_security_level_read_base, hrole_s, hlev, hinv]

/-- **C3 amended**: the child fallback consults the principal's role on the
parent investigation, not the parent's own read decision: for a confidential
study without grants of its own, read is granted exactly when the
investigation-level role is owner or admin; in particular an owner grant on
the parent yields read but not write on the study. -/
theorem parent_fallback_amended :
    (∀ (st : PermState) (u : AuthUser) (s : Study) (i : Investigation),
      u.is_authenticated = true → u.is_superuser = false → u.is_staff = false →
      grantsFor st u.uid s.rid = [] →
      s.security_level = "confidential" →
      s.investigation = some i →
      (can_read st u (Resource.study s) = true ↔
        GuardianMixin.get_user_role st u i.rid ∈ (["owner", "admin"] : List String))) ∧
    (∀ (st : PermState) (u : AuthUser) (s : Study) (i : Investigation),
      u.is_authenticated = true → u.is_superuser = false → u.is_staff = false →
      grantsFor st u.uid s.rid = [] →
      s.security_level = "confidential" →
      s.investigation = some i →
      grantsFor st u.uid i.rid = roleCodenames "owner" CType.investigation →
      can_read st u (Resource.study s) = true ∧
        can_write st u (Resource.study s) = false) := by
  constructor
  · exact study_confidential_fallback_iff
  · intro st u s i h1 h2 h3 hgs hlev hinv hown
    have hown2 : grantsFor st u.uid ⟨CType.investigation, i.oid⟩ =
        roleCodenames "owner" CType.investigation := hown
    have hrole_i : GuardianMixin.get_user_role st u i.rid = "owner" := by
      simp [GuardianMixin.get_user_role, h1, h2, hown2, Investigation.rid, roleCodenames,
        getPermsForRole_owner, getPermsForRole_contributor, getPermsForRole_authorized,
        permCodename, modelName]
    refine ⟨(study_confidential_fallback_iff st u s i h1 h2 h3 hgs hlev hinv).mpr ?_, ?_⟩
    · simp [hrole_i]
    · simp [can_write, hasPerm, h1, h2, hgs, Resource.rid]

/-- Witness for **C3 amended**: the concrete owner-of-parent scenario reads
but does not write the confidential study. -/
theorem parent_fallback_amended_witness :
    can_read stOwn p4 (Resource.study sConf) = true ∧
    can_write stOwn p4 (Resource.study sConf) = false :=
  parent_fallback_amended.2 stOwn p4 sConf iPub rfl rfl rfl rfl rfl rfl rfl

/-- **C5**: a successful role change leaves the permission grants of the pair
exactly equal to the permission set of the new role; every permission of the
old role outside the new set has been retracted. -/
theorem role_change_exact_grants
    (st st' : PermState) (u : AuthUser) (r : RId) (oldRole newRole : String)
    (hheld : (u.uid, r, oldRole) ∈ st.userRoles)
    (hold : grantsFor st u.uid r = roleCodenames oldRole r.ctype)
    (holdmem : oldRole ∈ recognizedRoles)
    (h : set_user_role st u r newRole = Except.ok st') :
    grantsFor st' u.uid r = roleCodenames newRole r.ctype ∧
      ∀ c ∈ roleCodenames oldRole r.ctype, c ∉ roleCodenames newRole r.ctype →
        c ∉ grantsFor st' u.uid r := by
  have hvalid : ∀ c ∈ grantsFor st u.uid r, c ∈ allCodenames r.ctype := by
    intro c hc
    rw [hold] at hc
    exact roleCodenames_subset_allCodenames r.ctype oldRole holdmem c hc
  have hg := set_user_role_grantsFor hvalid h
  exact ⟨hg, fun c hcold hcnew => by rw [hg]; exact hcnew⟩

/-- Witness for **C5**: downgrading the concrete owner to contributor leaves
exactly the contributor grants; delete and manage are gone. -/
theorem role_change_exact_grants_witness :
    grantsFor stD p1.uid rInv = roleCodenames "contributor" CType.investigation ∧
    "delete_investigation" ∉ grantsFor stD p1.uid rInv ∧
    "manage_permissions_investigation" ∉ grantsFor stD p1.uid rInv := by
  have h := role_change_exact_grants stA stD p1 rInv "owner" "contributor"
    (by decide) rfl (by decide) rfl
  exact ⟨h.1, h.2 _ (by decide) (by decide), h.2 _ (by decide) (by decide)⟩

/-- On a pair whose grants are exactly the permission set of one recognized
role, the change permission is held precisely when the mixin-derived role is
contributor, owner, or admin. -/
theorem can_write_rid_iff (st : PermState) (u : AuthUser) (r : RId) (ρ : String)
    (hρ : ρ ∈ recognizedRoles)
    (hsync : grantsFor st u.uid r = roleCodenames ρ r.ctype) :
    (hasPerm st u r (permCodename "change" (modelName r.ctype)) = true ↔
      GuardianMixin.get_user_role st u r ∈
        (["contributor", "owner", "admin"] : List String)) := by
  obtain ⟨ct, oid⟩ := r
  cases hau : u.is_authenticated with
  | false => simp [hasPerm, GuardianMixin.get_user_role, hau]
  | true =>
    cases hsu : u.is_superuser with
    | true => simp [hasPerm, GuardianMixin.get_user_role, hau, hsu]
    | false =>
      simp only [recognizedRoles, List.mem_cons, List.not_mem_nil, or_false] at hρ
      rcases hρ with rfl | rfl | rfl | rfl | rfl <;> cases ct <;>
        cases hstf : u.is_staff <;>
          simp [hasPerm, GuardianMixin.get_user_role, hau, hsu, hstf, hsync,
            roleCodenames, getPermsForRole_guest, getPermsForRole_internal,
            getPermsForRole_authorized, getPermsForRole_contributor,
            getPermsForRole_owner, permCodename, modelName]

/-- **C6**: with the grants of the pair in sync with one recognized role,
`can_write` holds exactly when the derived role is contributor, owner, or
admin; and `can_write` depends only on the resource identity — neither the
security level nor the parent reference of the resource plays any part. -/
theorem can_write_iff_role
    (st : PermState) (u : AuthUser) (res : Resource) (ρ : String)
    (hρ : ρ ∈ recognizedRoles)
    (hsync : grantsFor st u.uid res.rid = roleCodenames ρ res.rid.ctype) :
    (can_write st u res = true ↔
      GuardianMixin.get_user_role st u res.rid ∈
        (["contributor", "owner", "admin"] : List String)) ∧
    (∀ res2 : Resource, res2.rid = res.rid → can_write st u res2 = can_write st u res) :=
  ⟨can_write_rid_iff st u res.rid ρ hρ hsync,
   fun res2 h => by simp [can_write, h]⟩

/-- Witness for **C6**: the concrete owner writes the investigation, whatever
its security level. -/
theorem can_write_iff_role_witness :
    can_write stA p1 (Resource.investigation iC) = true :=
  (can_write_iff_role stA p1 (Resource.investigation iC) "owner" (by decide) rfl).1.mpr
    (by decide)

/-- **C8**: assigning the same recognized role twice in a row leaves exactly
one `UserRole` row for the pair, holding that role, and the permission grants
after the second call equal those after the first. -/
theorem assign_twice_idempotent
    (st st1 st2 : PermState) (u : AuthUser) (r : RId) (role : String)
    (huniq : (rolesFor st u.uid r).length ≤ 1)
    (hvalid : ∀ c ∈ grantsFor st u.uid r, c ∈ allCodenames r.ctype)
    (h1 : set_user_role st u r role = Except.ok st1)
    (h2 : set_user_role st1 u r role = Except.ok st2) :
    rolesFor st2 u.uid r = [(u.uid, r, role)] ∧
      grantsFor st2 u.uid r = grantsFor st1 u.uid r := by
  have hmem := set_user_role_role_mem h1
  have hg1 := set_user_role_grantsFor hvalid h1
  have hvalid1 : ∀ c ∈ grantsFor st1 u.uid r, c ∈ allCodenames r.ctype := by
    intro c hc
    rw [hg1] at hc
    exact roleCodenames_subset_allCodenames r.ctype role hmem c hc
  have hg2 := set_user_role_grantsFor hvalid1 h2
  have hr1 : rolesFor st1 u.uid r = [(u.uid, r, role)] := by
    rw [rolesFor_congr (set_user_role_userRoles h1) u.uid r]
    exact rolesFor_upsertUserRole st u.uid r role huniq
  have hr2 : rolesFor st2 u.uid r = [(u.uid, r, role)] := by
    rw [rolesFor_congr (set_user_role_userRoles h2) u.uid r]
    apply rolesFor_upsertUserRole
    rw [hr1]
    simp
  exact ⟨hr2, by rw [hg1, hg2]⟩

/-- Witness for **C8**: two consecutive owner assignments from the empty store
both produce exactly the state `stA`. -/
theorem assign_twice_idempotent_witness :
    rolesFor stA p1.uid rInv = [(1, rInv, "owner")] ∧
    grantsFor stA p1.uid rInv = grantsFor stA p1.uid rInv :=
  assign_twice_idempotent emptyState stA stA p1 rInv "owner" (by decide)
    (fun c hc => absurd hc (List.not_mem_nil c)) rfl rfl
